import Mathlib

/-!
Shallow embedding of `pass-words.py`, a generator of "correct horse battery
staple" passwords (https://xkcd.com/936/).

Modelling conventions:
* Python strings are modelled as `List Char` (abbreviated `PyStr`); Python
  integers as `Int` (they are unbounded in both languages).
* The file system is passed in explicitly: `isFile : PyStr → Bool` models
  `os.path.isfile`, `readLines : PyStr → List PyStr` models opening a path
  and reading its (newline-stripped) lines.
* `usage_exit` / `sys.exit` is modelled by an `Except ExitKind` result;
  uncaught runtime exceptions (`AssertionError` from `count_choices`,
  `ValueError` from `random.sample`) are modelled by `RunError`.
* The Python `set` of words is determinised as a duplicate-free list in
  insertion order; only membership, size and nodup-ness of the set are used
  by any property below, and those are independent of the enumeration order.
* The nondeterministic `random.sample` draw is a parameter `sampled`,
  constrained where needed by the predicate `pySample`.
-/

/-- Python strings are modelled as lists of characters. -/
abbrev PyStr := List Char

/-- Conversion from Lean string literals to the Python string model. -/
def pystr (s : String) : PyStr := s.toList

/-- Default maximum word length, line 43 of `pass-words.py`. -/
def DEFAULT_MAX_WORD_LEN : Int := 8

/-- Default minimum word length, line 44. -/
def DEFAULT_MIN_WORD_LEN : Int := 4

/-- Default word count, line 45. -/
def DEFAULT_WORD_COUNT : Int := 5

/-- Default word separator, line 46. -/
def DEFAULT_WORD_SEPARATOR : PyStr := pystr " "

/-- The mutable configuration variables of `main` (lines 96-101). -/
structure Config where
  words_paths : List PyStr
  word_count : Int
  max_word_len : Int
  min_word_len : Int
  word_separator : PyStr
  verbose : Bool
deriving DecidableEq

/-- The initial configuration of `main` (lines 96-101). -/
def initConfig : Config :=
  { words_paths := []
    word_count := DEFAULT_WORD_COUNT
    max_word_len := DEFAULT_MAX_WORD_LEN
    min_word_len := DEFAULT_MIN_WORD_LEN
    word_separator := DEFAULT_WORD_SEPARATOR
    verbose := false }

/-- A parsed command line option, as produced by `getopt` (lines 104-116).
Numeric flags are modelled after the successful `int(a)` conversion; a failed
conversion is a further usage error outside this model. -/
inductive Opt where
  | count (a : Int)
  | max (a : Int)
  | min (a : Int)
  | path (a : PyStr)
  | sep (a : PyStr)
  | verbose
  | help
deriving DecidableEq

/-- How `main` exits early through `usage_exit` (lines 63-92): with an error
message (exit code 1) or on a help request (exit code 0). -/
inductive ExitKind where
  | usageError (msg : PyStr)
  | helpExit
deriving DecidableEq

/-- Exit code of `usage_exit` (lines 63-92): 1 with a message, 0 for help. -/
def ExitKind.exitCode : ExitKind → Nat
  | ExitKind.usageError _ => 1
  | ExitKind.helpExit => 0

/-- The option processing loop of `main` (lines 121-148).  `-p`/`--path`
checks `os.path.isfile` and exits with a usage error for a non-file (lines
137-140); `-h`/`--help` exits via `usage_exit()` (lines 145-146). -/
def processOpts (isFile : PyStr → Bool) : List Opt → Config → Except ExitKind Config
  | [], c => Except.ok c
  | Opt.count a :: rest, c => processOpts isFile rest { c with word_count := a }
  | Opt.max a :: rest, c => processOpts isFile rest { c with max_word_len := a }
  | Opt.min a :: rest, c => processOpts isFile rest { c with min_word_len := a }
  | Opt.path a :: rest, c =>
      if isFile a then
        processOpts isFile rest { c with words_paths := c.words_paths ++ [a] }
      else Except.error (ExitKind.usageError (pystr "--path is not a file"))
  | Opt.sep a :: rest, c => processOpts isFile rest { c with word_separator := a }
  | Opt.verbose :: rest, c => processOpts isFile rest { c with verbose := true }
  | Opt.help :: _, _ => Except.error ExitKind.helpExit

/-- The checks after the option loop (lines 149-151): the `max < min`
configuration error, then the unconditional reset of `min_word_len` back to
`DEFAULT_MIN_WORD_LEN` (line 151), which discards any `-n` flag value. -/
def afterOpts (c : Config) : Except ExitKind Config :=
  if c.max_word_len < c.min_word_len then
    Except.error (ExitKind.usageError (pystr "--max < --min"))
  else Except.ok { c with min_word_len := DEFAULT_MIN_WORD_LEN }

/-- Python `str.strip()`: remove leading and trailing whitespace. -/
def pyStrip (s : PyStr) : PyStr :=
  ((s.dropWhile Char.isWhitespace).reverse.dropWhile Char.isWhitespace).reverse

/-- Python `str.lower()` (ASCII case mapping suffices for word lists). -/
def pyLower (s : PyStr) : PyStr := s.map Char.toLower

/-- `words.add(line)` (line 176): the Python `set` determinised as a
duplicate-free list in insertion order. -/
def addWord (words : List PyStr) (w : PyStr) : List PyStr :=
  if w ∈ words then words else words ++ [w]

/-- One iteration of the word filter (lines 174-176): strip, lowercase, and
keep the line only if `min_word_len <= len(line) <= max_word_len`. -/
def addLine (min_word_len max_word_len : Int) (words : List PyStr) (line : PyStr) : List PyStr :=
  let line := pyLower (pyStrip line)
  if min_word_len ≤ (line.length : Int) ∧ (line.length : Int) ≤ max_word_len then
    addWord words line
  else words

/-- The word pool construction loop of `main` (lines 171-176), over the lines
of each source file in order. -/
def buildPool (files : List (List PyStr)) (min_word_len max_word_len : Int) : List PyStr :=
  files.foldl (fun words file => file.foldl (addLine min_word_len max_word_len) words) []

/-- The recursive choices computation `count_choices` (lines 178-182).
`none` models the `AssertionError` raised when `w_count` is neither `1` nor
greater than `1`. -/
def count_choices (len_w : Int) (w_count : Int) : Option Int :=
  if _h1 : w_count = 1 then some len_w
  else if _h2 : 1 < w_count then
    Option.map (fun r => len_w * r) (count_choices (len_w - 1) (w_count - 1))
  else none
termination_by w_count.toNat
decreasing_by omega

/-- Helper: unfolding `count_choices` at `w_count = 1`. -/
theorem count_choices_one (len_w : Int) : count_choices len_w 1 = some len_w := by
  rw [count_choices]
  simp

/-- Helper: unfolding `count_choices` at `1 < w_count`. -/
theorem count_choices_step (len_w w_count : Int) (h : 1 < w_count) :
    count_choices len_w w_count =
      Option.map (fun r => len_w * r) (count_choices (len_w - 1) (w_count - 1)) := by
  rw [count_choices]
  rw [dif_neg (by omega), dif_pos h]

/-- Helper: `count_choices` fails (AssertionError) when `w_count < 1`. -/
theorem count_choices_lt_one (len_w w_count : Int) (h : w_count < 1) :
    count_choices len_w w_count = none := by
  rw [count_choices]
  rw [dif_neg (by omega), dif_neg (by omega)]

/-- Helper: for a positive request the choices computation is the product of
descending factors `len_w * (len_w - 1) * ... * (len_w - m)`. -/
theorem count_choices_prod (m : Nat) :
    ∀ x : Int, count_choices x ((m : Int) + 1) =
      some (∏ i ∈ Finset.range (m + 1), (x - (i : Int))) := by
  induction m with
  | zero =>
      intro x
      simpa using count_choices_one x
  | succ p ih =>
      intro x
      rw [count_choices_step x ((p + 1 : Nat) + 1) (by push_cast; omega)]
      have hw : ((p + 1 : Nat) : Int) + 1 - 1 = (p : Int) + 1 := by push_cast; ring
      rw [hw, ih (x - 1)]
      have hx : ∏ i ∈ Finset.range (p + 1 + 1), (x - (i : Int)) =
          x * ∏ i ∈ Finset.range (p + 1), (x - 1 - (i : Int)) := by
        rw [Finset.prod_range_succ']
        have : ∀ i ∈ Finset.range (p + 1), x - ((i + 1 : Nat) : Int) = x - 1 - (i : Int) := by
          intro i _
          push_cast
          ring
        rw [Finset.prod_congr rfl this]
        push_cast
        ring
      rw [hx]
      rfl

/-- Helper: `count_choices` succeeds for every request `1 ≤ w_count`. -/
theorem count_choices_isSome (x w_count : Int) (h : 1 ≤ w_count) :
    ∃ c, count_choices x w_count = some c := by
  have hm : ((w_count - 1).toNat : Int) + 1 = w_count := by omega
  have hp := count_choices_prod (w_count - 1).toNat x
  rw [hm] at hp
  exact ⟨_, hp⟩

/-- Helper: on natural inputs with a positive request, `count_choices` is the
falling factorial `Nat.descFactorial` (also when the request exceeds the pool,
where both sides are zero). -/
theorem count_choices_descFactorial (n k : Nat) (h : 1 ≤ k) :
    count_choices (n : Int) (k : Int) = some ((n.descFactorial k : Nat) : Int) := by
  obtain ⟨m, rfl⟩ : ∃ m, k = m + 1 := ⟨k - 1, by omega⟩
  have hcast : ((m + 1 : Nat) : Int) = (m : Int) + 1 := by push_cast; ring
  rw [hcast, count_choices_prod m n]
  congr 1
  rcases le_or_lt (m + 1) n with hle | hlt
  · rw [Nat.descFactorial_eq_prod_range, Nat.cast_prod]
    refine Finset.prod_congr rfl ?_
    intro i hi
    have : i ≤ n := by
      have := Finset.mem_range.mp hi
      omega
    rw [Nat.cast_sub this]
  · rw [Nat.descFactorial_eq_zero_iff_lt.mpr hlt, Nat.cast_zero]
    apply Finset.prod_eq_zero (Finset.mem_range.mpr (by omega : n < m + 1))
    simp

/-- Python `math.log(n, 2)`: defined (as `logb 2 n`) only for positive
arguments; `math.log` raises `ValueError` otherwise, modelled by `none`.
The IEEE float result is idealised as a real number. -/
noncomputable def math_log2 (n : Int) : Option Real :=
  if 0 < n then some (Real.logb 2 (n : Real)) else none

/-- The entropy computation of line 194: `log2 = math.log(n, 2) if n else 0`.
A zero choice count yields `0` instead of calling `math.log`. -/
noncomputable def entropy_bits (n : Int) : Option Real :=
  if n ≠ 0 then math_log2 n else some 0

/-- Decimal representation of an integer (used only inside description
labels, whose exact text no property below inspects). -/
def intRepr (n : Int) : PyStr := pystr (toString n)

/-- The reference alphabets of verbose mode (lines 155-160), modelled by
their names and sizes: `len(string.ascii_lowercase) = 26`,
`len(string.ascii_letters) = 52`, letters plus digits `= 62`, and the
printable non-whitespace characters `= 94`; only `len(text)` is used by the
code (lines 163-164). -/
def descTexts : List (PyStr × Int) :=
  [(pystr "ASCII lowercase letters", 26),
   (pystr "ASCII letters", 52),
   (pystr "ASCII letters or digits", 62),
   (pystr "ASCII printable non whitespace", 94)]

/-- The candidate password lengths of verbose mode (line 161). -/
def refCounts : List Nat := [8, 10, 16, 20]

/-- The description label of line 165 (without the fixed-width padding of
the Python format specifiers, which no property below inspects). -/
def choicesDescFmt (n : Nat) (len_text : Int) (desc : PyStr) : PyStr :=
  intRepr (n : Int) ++ pystr "*[" ++ intRepr len_text ++ pystr " " ++ desc ++ pystr "]"

/-- The verbose-mode comparison records (lines 154-166): for each reference
alphabet and each length, `choices = len_text ** n`, in the order produced by
`itertools.product(desc_texts, counts)`. -/
def verbose_entropies : List (Int × PyStr) :=
  descTexts.flatMap fun dt => refCounts.map fun n => (dt.2 ^ n, choicesDescFmt n dt.2 dt.1)

/-- The description label of the word scheme record (lines 186-188), again
without the fixed-width numeric padding. -/
def wordsDesc (word_count len_words min_word_len max_word_len : Int) (paths : List PyStr) : PyStr :=
  intRepr word_count ++ pystr "*[" ++ intRepr len_words ++ pystr " words (" ++
    intRepr min_word_len ++ pystr "-" ++ intRepr max_word_len ++
    pystr " letters) from " ++ List.intercalate (pystr ":") paths ++ pystr "]"

/-- The order used by `entropies.sort()` (line 192).  Python sorts the
`(choices, desc)` tuples lexicographically with a stable sort; ties on equal
choice counts (whose relative order no property below depends on) are left to
stability here rather than to the description strings. -/
def entropyLE (a b : Int × PyStr) : Prop := a.1 ≤ b.1

instance : DecidableRel entropyLE := fun a b => by
  unfold entropyLE
  infer_instance

/-- One line of standard output, at the granularity of the `print` calls of
`main`: the header of line 191, an entropy line of line 195 (carrying the
choice count and description that determine its text), a sampled word of
line 200, or the final joined password of line 202. -/
inductive OutLine where
  | header
  | entropy (choices : Int) (desc : PyStr)
  | word (w : PyStr)
  | password (s : PyStr)
deriving DecidableEq

/-- Whether an output line is part of the password result (a sampled word or
the joined password string) rather than of the entropy report. -/
def OutLine.isResult : OutLine → Bool
  | OutLine.word _ => true
  | OutLine.password _ => true
  | _ => false

/-- The uncaught runtime exceptions of `main`: the `AssertionError` of
`count_choices` (line 181) and the `ValueError` of `random.sample`
(line 198, raised when the requested count is negative or exceeds the
population). -/
inductive RunError where
  | assertionError
  | sampleValueError
deriving DecidableEq

/-- The tail of `main` after the word pool is built (lines 153-202): build
the verbose records, compute the word-scheme record with `count_choices`,
print the comparison report, then draw and print the sample.  The result is
the list of lines printed before any failure, together with the uncaught
exception if one is raised.  `sampled` is the (nondeterministic) result of
`random.sample(list(words), word_count)`, constrained by `pySample` where a
property depends on it. -/
def mainTail (cfg : Config) (wordsList : List PyStr) (sampled : List PyStr) :
    List OutLine × Option RunError :=
  match count_choices ((wordsList.length : Int)) cfg.word_count with
  | none => ([], some RunError.assertionError)
  | some choices =>
    let entropies := (if cfg.verbose then verbose_entropies else []) ++
      [(choices, wordsDesc cfg.word_count (wordsList.length : Int)
          cfg.min_word_len cfg.max_word_len cfg.words_paths)]
    let headerLines : List OutLine := if 1 < entropies.length then [OutLine.header] else []
    let entLines := (List.insertionSort entropyLE entropies).map fun p => OutLine.entropy p.1 p.2
    if cfg.word_count < 0 ∨ (wordsList.length : Int) < cfg.word_count then
      (headerLines ++ entLines, some RunError.sampleValueError)
    else
      (headerLines ++ entLines ++ sampled.map OutLine.word ++
        [OutLine.password (List.intercalate cfg.word_separator sampled)], none)

/-- Modelled from the spec and the Python library documentation:
`random.sample(population, k)` (standard library, not part of this
repository) returns the elements of the population at `k` distinct indices.
Which indices are drawn is the nondeterminism of the random source. -/
def pySample (population : List PyStr) (k : Int) (s : List PyStr) : Prop :=
  ∃ idxs : List (Fin population.length),
    idxs.Nodup ∧ idxs.length = k.toNat ∧ s = idxs.map population.get

/-- The whole of `main` (lines 95-202) after `getopt` succeeds: process the
options, apply the post-loop checks, substitute the default word-list paths
when none were given (lines 168-169), build the pool, and run the tail. -/
def mainRun (isFile : PyStr → Bool) (readLines : PyStr → List PyStr)
    (defaultPaths : List PyStr) (opts : List Opt) (sampled : List PyStr) :
    Except ExitKind (List OutLine × Option RunError) :=
  match processOpts isFile opts initConfig with
  | Except.error e => Except.error e
  | Except.ok c =>
    match afterOpts c with
    | Except.error e => Except.error e
    | Except.ok c2 =>
      let c3 := if c2.words_paths = [] then { c2 with words_paths := defaultPaths } else c2
      let wordsList := buildPool (c3.words_paths.map readLines) c3.min_word_len c3.max_word_len
      Except.ok (mainTail c3 wordsList sampled)

/-- Helper: inserting into the determinised set keeps it duplicate-free. -/
theorem addWord_nodup (words : List PyStr) (w : PyStr) (h : words.Nodup) :
    (addWord words w).Nodup := by
  unfold addWord
  split
  · exact h
  · rename_i hw
    simp [List.nodup_append, h, hw]

/-- Helper: the word filter keeps the accumulated set duplicate-free. -/
theorem foldl_addLine_nodup (a b : Int) :
    ∀ (file : List PyStr) (words : List PyStr), words.Nodup →
      (file.foldl (addLine a b) words).Nodup := by
  intro file
  induction file with
  | nil => intro words h; exact h
  | cons line rest ih =>
      intro words h
      rw [List.foldl_cons]
      apply ih
      simp only [addLine]
      split
      · exact addWord_nodup words _ h
      · exact h

/-- Helper: the word pool has no duplicates (Python set semantics). -/
theorem buildPool_nodup (files : List (List PyStr)) (a b : Int) :
    (buildPool files a b).Nodup := by
  unfold buildPool
  suffices h : ∀ (fs : List (List PyStr)) (words : List PyStr), words.Nodup →
      (fs.foldl (fun ws file => file.foldl (addLine a b) ws) words).Nodup by
    exact h files [] List.nodup_nil
  intro fs
  induction fs with
  | nil => intro words h; exact h
  | cons f rest ih =>
      intro words h
      rw [List.foldl_cons]
      exact ih _ (foldl_addLine_nodup a b f words h)

/-- Helper: when the request is positive but exceeds the pool size, the tail
of `main` prints the (nonempty) entropy report and then fails at the
`random.sample` call with a `ValueError`, printing no word or password
lines. -/
theorem mainTail_over_request (cfg : Config) (wordsList sampled : List PyStr)
    (h1 : 1 ≤ cfg.word_count) (h2 : (wordsList.length : Int) < cfg.word_count) :
    (mainTail cfg wordsList sampled).2 = some RunError.sampleValueError ∧
      (mainTail cfg wordsList sampled).1 ≠ [] ∧
      ∀ l ∈ (mainTail cfg wordsList sampled).1, l.isResult = false := by
  obtain ⟨c, hc⟩ := count_choices_isSome (wordsList.length : Int) cfg.word_count h1
  have hcond : (cfg.word_count < 0 ∨ (wordsList.length : Int) < cfg.word_count) := Or.inr h2
  unfold mainTail
  rw [hc]
  simp only [if_pos hcond]
  refine ⟨by trivial, ?_, ?_⟩
  · intro hnil
    have hlen := congrArg List.length hnil
    rw [List.length_append, List.length_map, List.length_insertionSort,
      List.length_append] at hlen
    simp at hlen
  · intro l hl
    rcases List.mem_append.mp hl with hmem | hmem
    · split at hmem
      · rw [List.mem_singleton.mp hmem]
        rfl
      · simp at hmem
    · obtain ⟨p, _, hp⟩ := List.mem_map.mp hmem
      rw [← hp]
      rfl

/-- Helper: when `0 ≤ word_count ≤ pool size` (and the choices computation
succeeded), the tail of `main` prints the entropy report, then the sampled
words one per line, then the joined password as the final line, and raises
no exception. -/
theorem mainTail_success (cfg : Config) (wordsList sampled : List PyStr)
    (h1 : 1 ≤ cfg.word_count) (h2 : cfg.word_count ≤ (wordsList.length : Int)) :
    ∃ pre, (mainTail cfg wordsList sampled).1 =
        pre ++ sampled.map OutLine.word ++
          [OutLine.password (List.intercalate cfg.word_separator sampled)] ∧
      (∀ l ∈ pre, l.isResult = false) ∧
      (mainTail cfg wordsList sampled).2 = none := by
  obtain ⟨c, hc⟩ := count_choices_isSome (wordsList.length : Int) cfg.word_count h1
  have hcond : ¬(cfg.word_count < 0 ∨ (wordsList.length : Int) < cfg.word_count) := by
    omega
  unfold mainTail
  rw [hc]
  simp only [if_neg hcond]
  refine ⟨_, rfl, ?_, by trivial⟩
  intro l hl
  rcases List.mem_append.mp hl with hmem | hmem
  · split at hmem
    · rw [List.mem_singleton.mp hmem]
      rfl
    · simp at hmem
  · obtain ⟨p, _, hp⟩ := List.mem_map.mp hmem
    rw [← hp]
    rfl

/-- Claim C4: for every pool size `n ≥ 1` and every `1 ≤ k ≤ n`,
`choices_for_sample` (the code's `count_choices`) equals the falling
factorial `n * (n-1) * ... * (n-k+1)` (`Nat.descFactorial`); in particular
it equals `n` when `k = 1`, equals `n!` when `k = n`, and
`count_choices 6 4 = 360`. -/
theorem C4_count_choices_falling_factorial (n k : Nat) (h1 : 1 ≤ k) (h2 : k ≤ n) :
    count_choices (n : Int) (k : Int) = some ((n.descFactorial k : Nat) : Int) ∧
      count_choices (n : Int) 1 = some (n : Int) ∧
      count_choices (n : Int) (n : Int) = some ((n.factorial : Nat) : Int) ∧
      count_choices 6 4 = some 360 := by
  refine ⟨count_choices_descFactorial n k h1, count_choices_one _, ?_, ?_⟩
  · rw [count_choices_descFactorial n n (le_trans h1 h2), Nat.descFactorial_self]
  · have h := count_choices_descFactorial 6 4 (by omega)
    have h6 : ((6 : Nat) : Int) = (6 : Int) := by norm_num
    have h4 : ((4 : Nat) : Int) = (4 : Int) := by norm_num
    rw [h6, h4] at h
    rw [h]
    norm_num [Nat.descFactorial]

/-- Claim C4 witness: the theorem instantiated at the end-to-end example
`n = 6`, `k = 4` from the specification. -/
theorem C4_witness :
    (1 ≤ 4 ∧ 4 ≤ 6) ∧
      (count_choices ((6 : Nat) : Int) ((4 : Nat) : Int) =
          some (((6 : Nat).descFactorial 4 : Nat) : Int) ∧
        count_choices ((6 : Nat) : Int) 1 = some ((6 : Nat) : Int) ∧
        count_choices ((6 : Nat) : Int) ((6 : Nat) : Int) =
          some (((6 : Nat).factorial : Nat) : Int) ∧
        count_choices 6 4 = some 360) :=
  ⟨⟨by omega, by omega⟩, C4_count_choices_falling_factorial 6 4 (by omega) (by omega)⟩

/-- Claim C5: `entropy_bits choices` is `log2 choices` for every
`choices > 0` and is `0` (not undefined, not negative infinity) for
`choices = 0`, so a zero-choice record does not abort the report. -/
theorem C5_entropy_bits_log2 (n : Int) (h : 0 < n) :
    entropy_bits n = some (Real.logb 2 (n : Real)) ∧ entropy_bits 0 = some 0 := by
  constructor
  · unfold entropy_bits math_log2
    rw [if_pos (by omega : n ≠ 0), if_pos h]
  · unfold entropy_bits
    simp

/-- Claim C5 witness: the theorem instantiated at the end-to-end example
choice count 360. -/
theorem C5_witness :
    (0 < (360 : Int)) ∧
      (entropy_bits 360 = some (Real.logb 2 ((360 : Int) : Real)) ∧
        entropy_bits 0 = some 0) :=
  ⟨by norm_num, C5_entropy_bits_log2 360 (by norm_num)⟩

/-- Claim C10: for every pool size `n ≥ 0` and requested count `k > n`, the
choices computation returns exactly `some 0` (its descending factor sequence
passes through zero rather than the computation failing), the word-scheme
record carrying that zero still appears in the printed entropy report, and
`entropy_bits 0 = 0` so it is reported as 0 bits. -/
theorem C10_over_request_zero_choices (cfg : Config) (wordsList sampled : List PyStr)
    (h1 : 1 ≤ cfg.word_count) (h2 : (wordsList.length : Int) < cfg.word_count) :
    count_choices (wordsList.length : Int) cfg.word_count = some 0 ∧
      (∃ d, OutLine.entropy 0 d ∈ (mainTail cfg wordsList sampled).1) ∧
      entropy_bits 0 = some 0 := by
  have hk : ((cfg.word_count.toNat : Nat) : Int) = cfg.word_count := by omega
  have h0 : count_choices (wordsList.length : Int) cfg.word_count = some 0 := by
    rw [← hk, count_choices_descFactorial wordsList.length cfg.word_count.toNat (by omega),
      Nat.descFactorial_eq_zero_iff_lt.mpr (by omega)]
    norm_num
  have hcond : cfg.word_count < 0 ∨ (wordsList.length : Int) < cfg.word_count := Or.inr h2
  have hmem : ∃ d, OutLine.entropy 0 d ∈ (mainTail cfg wordsList sampled).1 := by
    unfold mainTail
    rw [h0]
    simp only [if_pos hcond]
    refine ⟨wordsDesc cfg.word_count (wordsList.length : Int) cfg.min_word_len
      cfg.max_word_len cfg.words_paths, ?_⟩
    apply List.mem_append_right
    apply List.mem_map.mpr
    refine ⟨(0, wordsDesc cfg.word_count (wordsList.length : Int) cfg.min_word_len
      cfg.max_word_len cfg.words_paths), ?_, rfl⟩
    rw [List.mem_insertionSort]
    exact List.mem_append_right _ (List.mem_singleton.mpr rfl)
  exact ⟨h0, hmem, by simp [entropy_bits]⟩

/-- Claim C10 witness: the theorem instantiated at the empty pool with the
default request of five words. -/
theorem C10_witness :
    ((1 : Int) ≤ initConfig.word_count ∧
        ((([] : List PyStr).length : Int) < initConfig.word_count)) ∧
      (count_choices ((([] : List PyStr).length : Int)) initConfig.word_count = some 0 ∧
        (∃ d, OutLine.entropy 0 d ∈ (mainTail initConfig [] []).1) ∧
        entropy_bits 0 = some 0) :=
  ⟨⟨by decide, by decide⟩,
   C10_over_request_zero_choices initConfig [] [] (by decide) (by decide)⟩

/-- Claim C2 (amended): for every pool of size `n` and every requested count
`k > n` with `k ≥ 1`, the run fails at the sampling step with the
`ValueError` of `random.sample` (the code defines no `InsufficientPoolError`)
and emits no word lines and no password line; but, contrary to the claim as
stated, the entropy report is printed before the failure, so output is
produced. -/
theorem C2_over_request_fails_after_report (cfg : Config) (wordsList sampled : List PyStr)
    (h1 : 1 ≤ cfg.word_count) (h2 : (wordsList.length : Int) < cfg.word_count) :
    (mainTail cfg wordsList sampled).2 = some RunError.sampleValueError ∧
      (mainTail cfg wordsList sampled).1 ≠ [] ∧
      ∀ l ∈ (mainTail cfg wordsList sampled).1, l.isResult = false :=
  mainTail_over_request cfg wordsList sampled h1 h2

/-- Claim C2 witness: the amended theorem instantiated at a one-word pool
with the default request of five words. -/
theorem C2_witness :
    ((1 : Int) ≤ initConfig.word_count ∧
        (([pystr "lamp"].length : Int) < initConfig.word_count)) ∧
      ((mainTail initConfig [pystr "lamp"] []).2 = some RunError.sampleValueError ∧
        (mainTail initConfig [pystr "lamp"] []).1 ≠ [] ∧
        ∀ l ∈ (mainTail initConfig [pystr "lamp"] []).1, l.isResult = false) :=
  ⟨⟨by decide, by decide⟩,
   C2_over_request_fails_after_report initConfig [pystr "lamp"] [] (by decide) (by decide)⟩

/-- Claim C2 counterexample: with a one-word pool and the default request of
five words the run does fail at sampling, but it produces output: the
printed line list is nonempty (the entropy report precedes the failure),
refuting the claim that no output is produced. -/
theorem C2_counterexample :
    (mainTail initConfig [pystr "horse"] []).2 = some RunError.sampleValueError ∧
      (mainTail initConfig [pystr "horse"] []).1 ≠ [] := by
  have h := mainTail_over_request initConfig [pystr "horse"] [] (by decide) (by decide)
  exact ⟨h.1, h.2.1⟩

/-- Claim C3: if after filtering all sources the candidate pool is empty,
the run always fails with an uncaught error surfaced to the caller (the
`AssertionError` of `count_choices` for `k ≤ 0`, otherwise the `ValueError`
of `random.sample`), and emits no word line and no password line — in
particular no partial or empty password result. -/
theorem C3_empty_pool_fails (files : List (List PyStr)) (a b : Int) (cfg : Config)
    (sampled : List PyStr) (hpool : buildPool files a b = []) :
    ((mainTail cfg (buildPool files a b) sampled).2).isSome = true ∧
      ∀ l ∈ (mainTail cfg (buildPool files a b) sampled).1, l.isResult = false := by
  rw [hpool]
  rcases lt_or_le cfg.word_count 1 with hk | hk
  · have hnone : count_choices ((([] : List PyStr).length : Int)) cfg.word_count = none := by
      exact count_choices_lt_one _ _ hk
    unfold mainTail
    rw [hnone]
    exact ⟨rfl, fun l hl => absurd hl (List.not_mem_nil l)⟩
  · have hlt : ((([] : List PyStr).length : Int)) < cfg.word_count := by
      simp only [List.length_nil, Nat.cast_zero]
      omega
    have h := mainTail_over_request cfg [] sampled hk hlt
    refine ⟨?_, h.2.2⟩
    rw [h.1]
    rfl

/-- Claim C3 witness: the theorem instantiated at an empty source list under
the default configuration. -/
theorem C3_witness :
    buildPool [] 4 8 = [] ∧
      (((mainTail initConfig (buildPool [] 4 8) []).2).isSome = true ∧
        ∀ l ∈ (mainTail initConfig (buildPool [] 4 8) []).1, l.isResult = false) :=
  ⟨rfl, C3_empty_pool_fails [] 4 8 initConfig [] rfl⟩

/-- Claim C6: whenever `pool_size ≥ k ≥ 1` and `sampled` is a possible
result of `random.sample` on the pool, the sample has exactly `k` words,
pairwise distinct and all members of the pool; the output prints the sampled
words one per line, followed by the separator-joined password string as the
final line, with no exception raised. -/
theorem C6_sample_shape (files : List (List PyStr)) (a b : Int) (cfg : Config)
    (sampled : List PyStr)
    (h1 : 1 ≤ cfg.word_count)
    (h2 : cfg.word_count ≤ ((buildPool files a b).length : Int))
    (hs : pySample (buildPool files a b) cfg.word_count sampled) :
    ((sampled.length : Int) = cfg.word_count ∧ sampled.Nodup ∧
        ∀ w ∈ sampled, w ∈ buildPool files a b) ∧
      ∃ pre, (mainTail cfg (buildPool files a b) sampled).1 =
          pre ++ sampled.map OutLine.word ++
            [OutLine.password (List.intercalate cfg.word_separator sampled)] ∧
        (∀ l ∈ pre, l.isResult = false) ∧
        (mainTail cfg (buildPool files a b) sampled).2 = none := by
  obtain ⟨idxs, hnd, hlen, hmap⟩ := hs
  have hpoolnd := buildPool_nodup files a b
  refine ⟨⟨?_, ?_, ?_⟩, mainTail_success cfg _ sampled h1 h2⟩
  · rw [hmap, List.length_map, hlen]
    omega
  · rw [hmap]
    exact List.Nodup.map (List.nodup_iff_injective_get.mp hpoolnd) hnd
  · intro w hw
    rw [hmap] at hw
    obtain ⟨i, _, hi⟩ := List.mem_map.mp hw
    rw [← hi]
    exact List.get_mem _ _ _

/-- Claim C6 witness: the theorem instantiated at the pool built from the
two-word list `["horse", "lamp"]` with `k = 2` and the draw that picks
index 1 then index 0. -/
theorem C6_witness :
    ((1 : Int) ≤ ({ initConfig with word_count := 2 } : Config).word_count ∧
        ({ initConfig with word_count := 2 } : Config).word_count ≤
          ((buildPool [[pystr "horse", pystr "lamp"]] 4 8).length : Int) ∧
        pySample (buildPool [[pystr "horse", pystr "lamp"]] 4 8)
          ({ initConfig with word_count := 2 } : Config).word_count
          [pystr "lamp", pystr "horse"]) ∧
      ((([pystr "lamp", pystr "horse"].length : Int) =
            ({ initConfig with word_count := 2 } : Config).word_count ∧
          [pystr "lamp", pystr "horse"].Nodup ∧
          ∀ w ∈ [pystr "lamp", pystr "horse"],
            w ∈ buildPool [[pystr "horse", pystr "lamp"]] 4 8) ∧
        ∃ pre, (mainTail { initConfig with word_count := 2 }
              (buildPool [[pystr "horse", pystr "lamp"]] 4 8)
              [pystr "lamp", pystr "horse"]).1 =
            pre ++ [pystr "lamp", pystr "horse"].map OutLine.word ++
              [OutLine.password (List.intercalate
                ({ initConfig with word_count := 2 } : Config).word_separator
                [pystr "lamp", pystr "horse"])] ∧
          (∀ l ∈ pre, l.isResult = false) ∧
          (mainTail { initConfig with word_count := 2 }
              (buildPool [[pystr "horse", pystr "lamp"]] 4 8)
              [pystr "lamp", pystr "horse"]).2 = none) := by
  have hs : pySample (buildPool [[pystr "horse", pystr "lamp"]] 4 8)
      ({ initConfig with word_count := 2 } : Config).word_count
      [pystr "lamp", pystr "horse"] :=
    ⟨[⟨1, by decide⟩, ⟨0, by decide⟩], by decide, by decide, by decide⟩
  exact ⟨⟨by decide, by decide, hs⟩,
    C6_sample_shape [[pystr "horse", pystr "lamp"]] 4 8
      { initConfig with word_count := 2 } [pystr "lamp", pystr "horse"]
      (by decide) (by decide) hs⟩

/-- Claim C7 counterexample: a run with `--count 0` (violating the claimed
invariant `k ≥ 1`) passes every configuration check, proceeds through pool
construction, and then fails inside the core with the `AssertionError` of
`count_choices` — not with a usage/configuration error — refuting the claim
that both invariants are validated before pool construction. -/
theorem C7_counterexample :
    mainRun (fun _ => false) (fun _ => []) [] [Opt.count 0] [] =
      Except.ok ([], some RunError.assertionError) := by
  have h0 : count_choices ((([] : List PyStr).length : Int)) (0 : Int) = none :=
    count_choices_lt_one _ _ (by norm_num)
  have hrun : mainRun (fun _ => false) (fun _ => []) [] [Opt.count 0] [] =
      Except.ok (mainTail { initConfig with word_count := 0 } [] []) := rfl
  rw [hrun]
  unfold mainTail
  rw [h0]

/-- Claim C7 (amended): only the `max_len ≥ min_len` invariant is validated
before pool construction (its violation is reported as a usage error); the
`k ≥ 1` invariant is not validated anywhere, and for any `k ≤ 0` the core's
`count_choices` fails with an `AssertionError` at runtime. -/
theorem C7_only_max_min_validated (cfg : Config) (n k : Int) (hk : k ≤ 0) :
    ((∃ msg, afterOpts cfg = Except.error (ExitKind.usageError msg)) ↔
        cfg.max_word_len < cfg.min_word_len) ∧
      count_choices n k = none := by
  refine ⟨⟨?_, ?_⟩, count_choices_lt_one n k (by omega)⟩
  · rintro ⟨msg, hmsg⟩
    by_contra hlt
    unfold afterOpts at hmsg
    rw [if_neg hlt] at hmsg
    cases hmsg
  · intro hlt
    exact ⟨_, by unfold afterOpts; rw [if_pos hlt]⟩

/-- Claim C7 witness: the amended theorem instantiated at a configuration
with `--max 3` (below the default minimum 4) and at the request `k = 0`. -/
theorem C7_witness :
    ((0 : Int) ≤ 0) ∧
      (((∃ msg, afterOpts { initConfig with max_word_len := 3 } =
            Except.error (ExitKind.usageError msg)) ↔
          ({ initConfig with max_word_len := 3 } : Config).max_word_len <
            ({ initConfig with max_word_len := 3 } : Config).min_word_len) ∧
        count_choices 10 0 = none) :=
  ⟨by norm_num, C7_only_max_min_validated { initConfig with max_word_len := 3 } 10 0 (by norm_num)⟩

/-- Helper: if some explicitly named path is not a file and no help flag
occurs among the options, the option loop exits with a usage error, whatever
the configuration it started from. -/
theorem processOpts_bad_path (isFile : PyStr → Bool) (a : PyStr) :
    ∀ (opts : List Opt) (c : Config), Opt.path a ∈ opts → isFile a = false →
      Opt.help ∉ opts →
      ∃ msg, processOpts isFile opts c = Except.error (ExitKind.usageError msg) := by
  intro opts
  induction opts with
  | nil =>
      intro c hmem _ _
      exact absurd hmem (List.not_mem_nil _)
  | cons o rest ih =>
      intro c hmem hbad hnh
      have hnh2 : Opt.help ∉ rest := fun h => hnh (List.mem_cons_of_mem _ h)
      cases o with
      | count x =>
          rcases List.mem_cons.mp hmem with h | h
          · exact Opt.noConfusion h
          · simpa only [processOpts] using ih { c with word_count := x } h hbad hnh2
      | max x =>
          rcases List.mem_cons.mp hmem with h | h
          · exact Opt.noConfusion h
          · simpa only [processOpts] using ih { c with max_word_len := x } h hbad hnh2
      | min x =>
          rcases List.mem_cons.mp hmem with h | h
          · exact Opt.noConfusion h
          · simpa only [processOpts] using ih { c with min_word_len := x } h hbad hnh2
      | sep x =>
          rcases List.mem_cons.mp hmem with h | h
          · exact Opt.noConfusion h
          · simpa only [processOpts] using ih { c with word_separator := x } h hbad hnh2
      | verbose =>
          rcases List.mem_cons.mp hmem with h | h
          · exact Opt.noConfusion h
          · simpa only [processOpts] using ih { c with verbose := true } h hbad hnh2
      | help =>
          exact absurd (List.mem_cons_self _ _) hnh
      | path b =>
          cases hb : isFile b with
          | false =>
              refine ⟨pystr "--path is not a file", ?_⟩
              simp [processOpts, hb]
          | true =>
              rcases List.mem_cons.mp hmem with h | h
              · injection h with hab
                rw [hab, hb] at hbad
                cases hbad
              · obtain ⟨msg, hmsg⟩ :=
                  ih { c with words_paths := c.words_paths ++ [b] } h hbad hnh2
                exact ⟨msg, by simp [processOpts, hb, hmsg]⟩

/-- Claim C8: if an explicitly named word-list path is not a regular file
(and no help flag short-circuits the option loop first), the run exits with
a usage error carrying exit code 1, and the result does not depend on the
word-list reading function — no word list is read and no pool is ever
built. -/
theorem C8_bad_path_no_read (isFile : PyStr → Bool) (opts : List Opt) (a : PyStr)
    (hmem : Opt.path a ∈ opts) (hbad : isFile a = false) (hnh : Opt.help ∉ opts) :
    ∃ msg, (∀ (readLines : PyStr → List PyStr) (defaultPaths : List PyStr)
        (sampled : List PyStr),
        mainRun isFile readLines defaultPaths opts sampled =
          Except.error (ExitKind.usageError msg)) ∧
      ExitKind.exitCode (ExitKind.usageError msg) = 1 := by
  obtain ⟨msg, hmsg⟩ := processOpts_bad_path isFile a opts initConfig hmem hbad hnh
  refine ⟨msg, ?_, rfl⟩
  intro readLines defaultPaths sampled
  unfold mainRun
  rw [hmsg]

/-- Claim C8 witness: the theorem instantiated at a single bad `--path`
option under a file system with no files. -/
theorem C8_witness :
    (Opt.path (pystr "nowhere") ∈ [Opt.path (pystr "nowhere")] ∧
        (fun _ : PyStr => false) (pystr "nowhere") = false ∧
        Opt.help ∉ [Opt.path (pystr "nowhere")]) ∧
      ∃ msg, (∀ (readLines : PyStr → List PyStr) (defaultPaths : List PyStr)
          (sampled : List PyStr),
          mainRun (fun _ => false) readLines defaultPaths
              [Opt.path (pystr "nowhere")] sampled =
            Except.error (ExitKind.usageError msg)) ∧
        ExitKind.exitCode (ExitKind.usageError msg) = 1 :=
  ⟨⟨by decide, rfl, by decide⟩,
   C8_bad_path_no_read (fun _ => false) [Opt.path (pystr "nowhere")] (pystr "nowhere")
     (by decide) rfl (by decide)⟩

/-- Claim C1 (code bug, line 151 of `pass-words.py`): the `--min` flag value
is parsed into the configuration but then unconditionally reset to the
default 4 before the filter runs, contradicting the help text for `-n`.  At
the failing input `--min 6 --count 1` over a word list containing the
4-letter word "door", the pool is built with minimum 4, admits "door"
(length 4 < 6), and the run emits "door" as a password word, violating the
supplied minimum. -/
theorem C1_min_flag_not_honored :
    (∃ c, processOpts (fun _ => false) [Opt.min 6, Opt.count 1] initConfig = Except.ok c ∧
        c.min_word_len = 6 ∧
        afterOpts c = Except.ok { c with min_word_len := DEFAULT_MIN_WORD_LEN }) ∧
      buildPool [[pystr "door"]] DEFAULT_MIN_WORD_LEN DEFAULT_MAX_WORD_LEN = [pystr "door"] ∧
      ((pystr "door").length : Int) < 6 ∧
      ∃ out, mainRun (fun _ => false) (fun _ => [pystr "door"]) [pystr "w"]
          [Opt.min 6, Opt.count 1] [pystr "door"] = Except.ok out ∧
        OutLine.word (pystr "door") ∈ out.1 ∧ out.2 = none := by
  refine ⟨⟨{ initConfig with min_word_len := 6, word_count := 1 }, rfl, rfl, rfl⟩,
    by decide, by decide, ?_⟩
  have hrun : mainRun (fun _ => false) (fun _ => [pystr "door"]) [pystr "w"]
      [Opt.min 6, Opt.count 1] [pystr "door"] =
      Except.ok (mainTail
        { initConfig with min_word_len := 4, word_count := 1, words_paths := [pystr "w"] }
        (buildPool [[pystr "door"]] 4 8) [pystr "door"]) := rfl
  obtain ⟨pre, hpre, hpre2, hnone⟩ := mainTail_success
    { initConfig with min_word_len := 4, word_count := 1, words_paths := [pystr "w"] }
    (buildPool [[pystr "door"]] 4 8) [pystr "door"] (by decide) (by decide)
  refine ⟨_, hrun, ?_, hnone⟩
  rw [hpre]
  apply List.mem_append_left
  apply List.mem_append_right
  simp
